import Mathlib

/-!
Verification development for `tardis/analysis_tools/line_ID.py`.

The module under study is the `line_identifier` class: a stateful query
object over a fixed packet/line dataset.  Its attributes (`_lam_min`,
`_lam_max` and the six derived caches) are modelled as `Option (Option _)`
slots: `none` means the Python attribute was never assigned (reading it
raises `AttributeError`), `some none` means it holds Python `None`, and
`some (some v)` means it holds the value `v`.  Wavelengths and frequencies
are modelled as exact rationals; a packet with no last-line interaction
carries `none` in place of the NaN frequency, and the elementwise numpy
comparisons on NaN evaluate to false, which the mask model reproduces.
Errors raised by the Python code are modelled with `Except PyErr`.
-/

namespace LineID

/-- One row of `lines_df`: the index label together with the line data
`atomic_number`, `ion_number` and the rest `wavelength` (Angstrom). -/
structure LineInfo where
  atomic_number : Nat
  ion_number : Nat
  wavelength : Rat
deriving DecidableEq, Repr

/-- A row of `lines_df` with its index label (`lines_df.index` entry). -/
structure LinesRow where
  label : Nat
  info : LineInfo
deriving DecidableEq, Repr

/-- The SDEC dataset consumed by `line_identifier`:
`packets` holds, per packet, `last_line_interaction_in_nu` (Hz, `none`
standing for NaN) and `last_line_interaction_in_id` (a positional index
into `lines`); `lines` is `lines_df`; `spectrum_wavelength` is the
simulated spectrum wavelength grid in Angstrom. -/
structure Dataset where
  packets : List (Option Rat × Nat)
  lines : List LinesRow
  spectrum_wavelength : List Rat
deriving DecidableEq, Repr

/-- `np.unique`: the sorted distinct values of a sequence. -/
def npUnique (l : List Nat) : List Nat :=
  List.insertionSort (· ≤ ·) l.dedup

/-- `np.bincount`: for a nonempty input, the occurrence count of every
value from `0` to the maximum of the input; empty for an empty input. -/
def npBincount (l : List Nat) : List Nat :=
  match l with
  | [] => []
  | _ :: _ => (List.range (l.foldr max 0 + 1)).map (fun i => l.count i)

/-- `counts[counts > 0]`: the zero-count-dropped bincount. -/
def posCounts (l : List Nat) : List Nat :=
  (npBincount l).filter (fun c => decide (0 < c))

/-- `np.min` of a float array; `none` models the ValueError raised on an
empty array. -/
def npMin : List Rat → Option Rat
  | [] => none
  | x :: xs => some (xs.foldl min x)

/-- `np.max` of a float array; `none` models the ValueError on empty. -/
def npMax : List Rat → Option Rat
  | [] => none
  | x :: xs => some (xs.foldl max x)

/-- `np.argsort` ascending.  numpy leaves the order of equal values
unspecified; this is one concrete realization (a stable sort of the
index range by value), and nothing proved below depends on tie order. -/
def argsortAsc (vals : List Nat) : List Nat :=
  @List.insertionSort Nat (fun i j => vals.getD i 0 ≤ vals.getD j 0)
    (fun _ _ => Nat.decLe _ _) (List.range vals.length)

/-- `lines_df.iloc[ids].index`: the index label of each positionally
selected row; `none` models the IndexError on an out-of-range position. -/
def ilocIndex (lines : List LinesRow) : List Nat → Option (List Nat)
  | [] => some []
  | i :: rest =>
    match lines.get? i with
    | none => none
    | some r => (ilocIndex lines rest).map (fun ls => r.label :: ls)

/-- `lines_df.loc[labels]`: for each requested label, every row carrying
that label, concatenated in request order; `none` models the KeyError
raised when a label matches no row. -/
def locTable (lines : List LinesRow) : List Nat → Option (List LinesRow)
  | [] => some []
  | lab :: rest =>
    match lines.filter (fun r => r.label == lab) with
    | [] => none
    | m :: ms => (locTable lines rest).map (fun t => m :: ms ++ t)

/-- The Python exceptions surfaced by the modelled code paths. -/
inductive PyErr where
  | attributeError (attr : String)
  | valueError (msg : String)
  | indexError
  | keyError
deriving DecidableEq, Repr

/-- The mutable attribute slots of a `line_identifier` instance.
`none` = attribute absent, `some none` = holds Python `None`,
`some (some v)` = holds `v`. -/
structure LIState where
  lam_min_attr : Option (Option Rat)
  lam_max_attr : Option (Option Rat)
  lam_in_c : Option (Option (List (Option Rat)))
  line_mask_c : Option (Option (List Bool))
  lines_ids_c : Option (Option (List Nat))
  lines_ids_unique_c : Option (Option (List Nat))
  lines_info_unique_c : Option (Option (List LinesRow))
  lines_count_c : Option (Option (List Nat))
deriving DecidableEq, Repr

/-- `__init__` stores only `self.data`; it never calls `_reset_cache`,
so none of the underscore attributes exist on a fresh instance. -/
def initState : LIState :=
  { lam_min_attr := none, lam_max_attr := none, lam_in_c := none,
    line_mask_c := none, lines_ids_c := none, lines_ids_unique_c := none,
    lines_info_unique_c := none, lines_count_c := none }

/-- `_reset_derived_quantities`: all six derived attributes are set to
`None`. -/
def resetDerivedQuantities (st : LIState) : LIState :=
  { st with lam_in_c := some none, line_mask_c := some none,
            lines_ids_c := some none, lines_ids_unique_c := some none,
            lines_info_unique_c := some none, lines_count_c := some none }

/-- A conversion factor attached to a dimensioned quantity: one unit of
the quantity equals `factorToAA` Angstrom. -/
structure UnitFactor where
  factorToAA : Rat
deriving DecidableEq, Repr

/-- A value passed to a bound setter: either an astropy quantity (which
has a `.to` method) or a bare number (which has none). -/
inductive BoundVal where
  | qty (value : Rat) (unit : UnitFactor)
  | bare (v : Rat)
deriving DecidableEq, Repr

/-- `val.to(u.AA)`: converts a dimensioned quantity to Angstrom; `none`
models the AttributeError raised when a bare number has no `.to`. -/
def BoundVal.toAA : BoundVal → Option Rat
  | .qty v u => some (v * u.factorToAA)
  | .bare _ => none

/-- The numeric payload, used by the `val * u.AA` fallback branch. -/
def BoundVal.asNumber : BoundVal → Rat
  | .qty v _ => v
  | .bare v => v

/-- The setter body `try: val.to(u.AA) except AttributeError: val * u.AA`:
attempt the quantity conversion, and on AttributeError treat the bare
number as already being in Angstrom. -/
def setterCoerce (val : BoundVal) : Rat :=
  match val.toAA with
  | some q => q
  | none => val.asNumber

/-- The `lam_min` setter: reset all derived quantities, then store the
coerced bound. -/
def setLamMin (st : LIState) (val : BoundVal) : LIState :=
  { resetDerivedQuantities st with lam_min_attr := some (some (setterCoerce val)) }

/-- The `lam_max` setter: reset all derived quantities, then store the
coerced bound. -/
def setLamMax (st : LIState) (val : BoundVal) : LIState :=
  { resetDerivedQuantities st with lam_max_attr := some (some (setterCoerce val)) }

/-- `identify(lam_min, lam_max)`: assign both bounds in order. -/
def identify (st : LIState) (lmin lmax : BoundVal) : LIState :=
  setLamMax (setLamMin st lmin) lmax

/-- The `lam_min` getter. -/
def getLamMin (st : LIState) : Except PyErr (Rat × LIState) :=
  match st.lam_min_attr with
  | none => .error (.attributeError "_lam_min")
  | some none => .error (.valueError "lam_min not set")
  | some (some q) => .ok (q, st)

/-- The `lam_max` getter (its message differs from the `lam_min` one in
the source). -/
def getLamMax (st : LIState) : Except PyErr (Rat × LIState) :=
  match st.lam_max_attr with
  | none => .error (.attributeError "_lam_max")
  | some none => .error (.valueError "lam_max is not set")
  | some (some q) => .ok (q, st)

/-- Speed of light in Angstrom times Hertz: nu-to-lambda conversion
constant of `u.spectral()` (2.99792458e18). -/
def cAA : Rat := 2997924580000000000

/-- The spectral equivalence: wavelength in Angstrom from frequency in
Hertz. -/
def nuToLam (nu : Rat) : Rat := cAA / nu

/-- Body of the `lam_in` property: every packet's
`last_line_interaction_in_nu` converted from Hz to Angstrom; a NaN
frequency stays NaN (`none`). -/
def computeLamIn (d : Dataset) : List (Option Rat) :=
  d.packets.map (fun p => p.1.map nuToLam)

/-- One elementwise step of `(lam_in >= lam_min) * (lam_in <= lam_max)`:
comparisons against NaN are false, so a NaN wavelength is never masked
in. -/
def maskOf (lmin lmax : Rat) : Option Rat → Bool
  | none => false
  | some v => decide (lmin ≤ v) && decide (v ≤ lmax)

/-- Body of the `line_mask` property under bounds `lmin`, `lmax`. -/
def computeMask (d : Dataset) (lmin lmax : Rat) : List Bool :=
  (computeLamIn d).map (maskOf lmin lmax)

/-- `packets_df.last_line_interaction_in_id[mask].values`: the ids of the
packets selected by the boolean mask. -/
def maskedIds (packets : List (Option Rat × Nat)) (mask : List Bool) : List Nat :=
  ((packets.zip mask).filter (fun pm => pm.2)).map (fun pm => pm.1.2)

/-- Body of the `lines_ids` property: the index labels of the line rows
positionally referenced by the masked packets. -/
def computeLinesIds (d : Dataset) (lmin lmax : Rat) : Option (List Nat) :=
  ilocIndex d.lines (maskedIds d.packets (computeMask d lmin lmax))

/-- The `lam_in` property: cached lazily. -/
def getLamIn (d : Dataset) (st : LIState) :
    Except PyErr (List (Option Rat) × LIState) :=
  match st.lam_in_c with
  | none => .error (.attributeError "_lam_in")
  | some (some v) => .ok (v, st)
  | some none =>
    let v := computeLamIn d
    .ok (v, { st with lam_in_c := some (some v) })

/-- The `line_mask` property: cached lazily, computed from `lam_in` and
the two bounds. -/
def getLineMask (d : Dataset) (st : LIState) :
    Except PyErr (List Bool × LIState) :=
  match st.line_mask_c with
  | none => .error (.attributeError "_line_mask")
  | some (some v) => .ok (v, st)
  | some none => do
    let (lamin, st1) ← getLamIn d st
    let (lmin, st2) ← getLamMin st1
    let (lmax, st3) ← getLamMax st2
    let v := lamin.map (maskOf lmin lmax)
    .ok (v, { st3 with line_mask_c := some (some v) })

/-- The `lines_ids` property: cached lazily. -/
def getLinesIds (d : Dataset) (st : LIState) :
    Except PyErr (List Nat × LIState) :=
  match st.lines_ids_c with
  | none => .error (.attributeError "_lines_ids")
  | some (some v) => .ok (v, st)
  | some none => do
    let (mask, st1) ← getLineMask d st
    match ilocIndex d.lines (maskedIds d.packets mask) with
    | none => .error .indexError
    | some labels =>
      .ok (labels, { st1 with lines_ids_c := some (some labels) })

/-- The `lines_ids_unique` property: cached lazily. -/
def getLinesIdsUnique (d : Dataset) (st : LIState) :
    Except PyErr (List Nat × LIState) :=
  match st.lines_ids_unique_c with
  | none => .error (.attributeError "_lines_ids_unique")
  | some (some v) => .ok (v, st)
  | some none => do
    let (ids, st1) ← getLinesIds d st
    let v := npUnique ids
    .ok (v, { st1 with lines_ids_unique_c := some (some v) })

/-- The `lines_info_unique` property: cached lazily. -/
def getLinesInfoUnique (d : Dataset) (st : LIState) :
    Except PyErr (List LinesRow × LIState) :=
  match st.lines_info_unique_c with
  | none => .error (.attributeError "_lines_info_unique")
  | some (some v) => .ok (v, st)
  | some none => do
    let (uniq, st1) ← getLinesIdsUnique d st
    match locTable d.lines uniq with
    | none => .error .keyError
    | some tbl =>
      .ok (tbl, { st1 with lines_info_unique_c := some (some tbl) })

/-- The `lines_count` property: cached lazily;
`np.bincount(lines_ids)` filtered to the positive counts. -/
def getLinesCount (d : Dataset) (st : LIState) :
    Except PyErr (List Nat × LIState) :=
  match st.lines_count_c with
  | none => .error (.attributeError "_lines_count")
  | some (some v) => .ok (v, st)
  | some none => do
    let (ids, st1) ← getLinesIds d st
    let v := posCounts ids
    .ok (v, { st1 with lines_count_c := some (some v) })

/-- The state every bound-setting sequence ends in: both bounds stored,
all six derived attributes reset to `None`. -/
def boundsSetState (lmin lmax : Rat) : LIState :=
  { lam_min_attr := some (some lmin), lam_max_attr := some (some lmax),
    lam_in_c := some none, line_mask_c := some none, lines_ids_c := some none,
    lines_ids_unique_c := some none, lines_info_unique_c := some none,
    lines_count_c := some none }

/-- One data row of the primary export file.  The species label rendered
by the source is `atomic_number2element_symbol(Z)` followed by
`int_to_roman(ion_number + 1)`; both helpers are injective external
formatters, so the species string is modelled by the argument pair
`(Z, ion_number + 1)`.  The wavelength column is rendered to three
decimal places by an external formatter and is modelled by its exact
value. -/
structure ExportRow where
  species : Nat × Nat
  wavelength : Rat
  transitions : Nat
  fraction : Rat
deriving DecidableEq, Repr

/-- The primary export file: one `#`-comment header line stating the
wavelength range, then the data rows. -/
structure ExportFile where
  headerRange : Rat × Rat
  rows : List ExportRow
deriving DecidableEq, Repr

/-- One row of the collapsed export: `groupby(["Species"]).sum()` sums
the transition and fraction columns and concatenates the wavelength
strings of the group, modelled as the list of the group's wavelengths. -/
structure CollapsedRow where
  species : Nat × Nat
  wavelengths : List Rat
  transitions : Nat
  fraction : Rat
deriving DecidableEq, Repr

/-- The collapsed export file. -/
structure CollapsedFile where
  headerRange : Rat × Rat
  rows : List CollapsedRow
deriving DecidableEq, Repr

/-- The observable outcome of one `plot_summary` call: the resolved
`self.nlines` and the optional exported files. -/
structure PlotOut where
  nlines : Nat
  mainFile : Option ExportFile
  collapsedFileName : Option (List Char)
  collapsedFile : Option CollapsedFile
deriving DecidableEq, Repr

/-- The `nlines` clamp of `plot_summary`: default cap 20, explicit cap
`n`, never more than the number of distinct lines `m`. -/
def resolveNlines (nlinesArg : Option Nat) (m : Nat) : Nat :=
  match nlinesArg with
  | none => if 20 < m then 20 else m
  | some n => if n < m then n else m

/-- The label loop of `plot_summary` fused with the dataframe zip: for
each ranked `(line_id, count)` pair, look the id up in the cached
`lines_info_unique` table and build the export row; the fraction column
is the count divided by the float total.  `KeyError` surfaces if an id
is missing from the table. -/
def buildRows (tbl : List LinesRow) (total : Rat) :
    List (Nat × Nat) → Except PyErr (List ExportRow)
  | [] => .ok []
  | (lab, c) :: rest =>
    match tbl.find? (fun r => r.label == lab) with
    | none => .error .keyError
    | some r =>
      (buildRows tbl total rest).map
        (fun rs =>
          { species := (r.info.atomic_number, r.info.ion_number + 1),
            wavelength := r.info.wavelength,
            transitions := c,
            fraction := (c : Rat) / total } :: rs)

/-- `dataframe.groupby(["Species"]).sum()`: one row per distinct species
with the group's columns summed.  pandas orders the groups by the
rendered species string; only group membership and the later sort by
transition total matter to anything proved here, so the groups are
listed in first-occurrence order. -/
def collapseRows (rows : List ExportRow) : List CollapsedRow :=
  ((rows.map (fun r => r.species)).dedup).map (fun sp =>
    let grp := rows.filter (fun r => r.species == sp)
    { species := sp,
      wavelengths := grp.map (fun r => r.wavelength),
      transitions := (grp.map (fun r => r.transitions)).sum,
      fraction := (grp.map (fun r => r.fraction)).sum })

/-- `sort_values(by=["Total no. of transitions"], ascending=False)`. -/
def sortCollapsedDesc (rs : List CollapsedRow) : List CollapsedRow :=
  @List.insertionSort CollapsedRow (fun a b => b.transitions ≤ a.transitions)
    (fun _ _ => Nat.decLe _ _) rs

/-- The collapsed file name built by the source:
`output_filename[:-4] + "_collapsed" + output_filename[-4:]`. -/
def collapsedName (s : List Char) : List Char :=
  s.take (s.length - 4) ++ "_collapsed".toList ++ s.drop (s.length - 4)

/-- Modelled from the spec for the refinement comparison in C7: the
"name derived by inserting `_collapsed` before the extension", the
extension being the final dot and everything after it (appended at the
end when the name has no dot). -/
def specCollapsedName (s : List Char) : List Char :=
  let extLen := (s.reverse.takeWhile (fun ch => decide (ch ≠ '.'))).length
  if extLen = s.length then s ++ "_collapsed".toList
  else
    s.take (s.length - extLen - 1) ++ "_collapsed".toList ++
      s.drop (s.length - extLen - 1)

/-- The bound-resolution prologue of `plot_summary`: each omitted bound
defaults to the corresponding end of the spectrum wavelength grid (a
bare float, `np.min(...).value`), and each provided bound is assigned
as given; both go through the property setters. -/
def plotSummarySetBounds (d : Dataset) (lamMinArg lamMaxArg : Option BoundVal)
    (st : LIState) : Except PyErr LIState := do
  let st1 ←
    match lamMinArg with
    | none =>
      match npMin d.spectrum_wavelength with
      | none => Except.error (.valueError "zero-size array reduction")
      | some m => Except.ok (setLamMin st (BoundVal.bare m))
    | some v => Except.ok (setLamMin st v)
  let st2 ←
    match lamMaxArg with
    | none =>
      match npMax d.spectrum_wavelength with
      | none => Except.error (.valueError "zero-size array reduction")
      | some m => Except.ok (setLamMax st1 (BoundVal.bare m))
    | some v => Except.ok (setLamMax st1 v)
  Except.ok st2

/-- The bounds `plot_summary` ends up storing, as a pure function of the
dataset and the two optional arguments. -/
def resolvedBound (spectrumBound : Option Rat) : Option BoundVal → Option Rat
  | none => spectrumBound
  | some v => some (setterCoerce v)

/-- Both resolved bounds, `none` when a default is needed but the
spectrum grid is empty. -/
def resolvedBounds (d : Dataset) (lamMinArg lamMaxArg : Option BoundVal) :
    Option (Rat × Rat) :=
  match resolvedBound (npMin d.spectrum_wavelength) lamMinArg,
        resolvedBound (npMax d.spectrum_wavelength) lamMaxArg with
  | some a, some b => some (a, b)
  | _, _ => none

/-- The body of `plot_summary` after bound resolution: rank the unique
lines by descending count (`argsort` then reverse), clamp `nlines`,
build the per-line rows, and, when an output file name is given,
assemble the primary export file and the collapsed companion.  The
rendered bar chart itself is external output and carries no data beyond
what `PlotOut` records. -/
def plotSummaryBody (d : Dataset) (nlinesArg : Option Nat)
    (outName : Option (List Char)) (st1 : LIState) :
    Except PyErr (PlotOut × LIState) := do
  let (counts, st2) ← getLinesCount d st1
  let (uniq, st3) ← getLinesIdsUnique d st2
  let perm := (argsortAsc counts).reverse
  let countsRanked := perm.map (fun i => counts.getD i 0)
  let total : Rat := (counts.sum : Nat)
  let idsRanked := perm.map (fun i => uniq.getD i 0)
  let nl := resolveNlines nlinesArg countsRanked.length
  let (tbl, st4) ← getLinesInfoUnique d st3
  let rows ← buildRows tbl total (idsRanked.zip countsRanked)
  let (lmin, st5) ← getLamMin st4
  let (lmax, st6) ← getLamMax st5
  match outName with
  | none =>
    .ok ({ nlines := nl, mainFile := none, collapsedFileName := none,
           collapsedFile := none }, st6)
  | some name =>
    let mainF : ExportFile := { headerRange := (lmin, lmax), rows := rows }
    let collapsed : CollapsedFile :=
      { headerRange := (lmin, lmax),
        rows := sortCollapsedDesc (collapseRows rows) }
    .ok ({ nlines := nl, mainFile := some mainF,
           collapsedFileName := some (collapsedName name),
           collapsedFile := some collapsed }, st6)

/-- `plot_summary`: resolve the bounds through the setters, then run the
ranking, clamping, labelling and export body. -/
def plotSummaryCompute (d : Dataset) (nlinesArg : Option Nat)
    (lamMinArg lamMaxArg : Option BoundVal) (outName : Option (List Char))
    (st : LIState) : Except PyErr (PlotOut × LIState) := do
  let st1 ← plotSummarySetBounds d lamMinArg lamMaxArg st
  plotSummaryBody d nlinesArg outName st1

/-- All six derived attributes hold Python `None`: the invalidated state
the reset helper leaves behind. -/
def derivedInvalidated (st : LIState) : Prop :=
  st.lam_in_c = some none ∧ st.line_mask_c = some none ∧
  st.lines_ids_c = some none ∧ st.lines_ids_unique_c = some none ∧
  st.lines_info_unique_c = some none ∧ st.lines_count_c = some none

/-- State after `lam_in` has been recomputed and cached. -/
def stLamIn (d : Dataset) (a b : Rat) : LIState :=
  { boundsSetState a b with lam_in_c := some (some (computeLamIn d)) }

/-- State after `line_mask` has additionally been cached. -/
def stMask (d : Dataset) (a b : Rat) : LIState :=
  { stLamIn d a b with line_mask_c := some (some (computeMask d a b)) }

/-- State after `lines_ids` has additionally been cached. -/
def stIds (d : Dataset) (a b : Rat) (ids : List Nat) : LIState :=
  { stMask d a b with lines_ids_c := some (some ids) }

/-- State after `lines_count` has additionally been cached. -/
def stCount (d : Dataset) (a b : Rat) (ids : List Nat) : LIState :=
  { stIds d a b ids with lines_count_c := some (some (posCounts ids)) }

/-- State after `lines_ids_unique` has additionally been cached. -/
def stUnique (d : Dataset) (a b : Rat) (ids : List Nat) : LIState :=
  { stCount d a b ids with lines_ids_unique_c := some (some (npUnique ids)) }

/-- State with every derived quantity cached: where a successful
`plot_summary` call leaves the instance. -/
def cachedState (d : Dataset) (a b : Rat) (ids : List Nat)
    (tbl : List LinesRow) : LIState :=
  { stUnique d a b ids with lines_info_unique_c := some (some tbl) }

/-- The outcome of the `plot_summary` body as a pure function of the
dataset and the resolved bounds: the observable effect of the call once
the lazily cached getters have been evaluated away. -/
def purePlot (d : Dataset) (nlinesArg : Option Nat) (a b : Rat)
    (outName : Option (List Char)) : Except PyErr (PlotOut × LIState) :=
  match computeLinesIds d a b with
  | none => .error .indexError
  | some ids =>
    match locTable d.lines (npUnique ids) with
    | none => .error .keyError
    | some tbl =>
      match buildRows tbl ((posCounts ids).sum : Nat)
          ((((argsortAsc (posCounts ids)).reverse).map
              (fun i => (npUnique ids).getD i 0)).zip
            (((argsortAsc (posCounts ids)).reverse).map
              (fun i => (posCounts ids).getD i 0))) with
      | .error e => .error e
      | .ok rows =>
        match outName with
        | none =>
          .ok ({ nlines := resolveNlines nlinesArg
                   (((argsortAsc (posCounts ids)).reverse).map
                     (fun i => (posCounts ids).getD i 0)).length,
                 mainFile := none, collapsedFileName := none,
                 collapsedFile := none }, cachedState d a b ids tbl)
        | some name =>
          .ok ({ nlines := resolveNlines nlinesArg
                   (((argsortAsc (posCounts ids)).reverse).map
                     (fun i => (posCounts ids).getD i 0)).length,
                 mainFile := some { headerRange := (a, b), rows := rows },
                 collapsedFileName := some (collapsedName name),
                 collapsedFile :=
                   some { headerRange := (a, b),
                          rows := sortCollapsedDesc (collapseRows rows) } },
               cachedState d a b ids tbl)

instance : DecidableRel
    (fun (r1 r2 : CollapsedRow) => r2.transitions ≤ r1.transitions) :=
  fun _ _ => Nat.decLe _ _

instance : IsTotal CollapsedRow
    (fun r1 r2 => r2.transitions ≤ r1.transitions) :=
  ⟨fun a b => Or.symm (Nat.le_total a.transitions b.transitions)⟩

instance : IsTrans CollapsedRow
    (fun r1 r2 => r2.transitions ≤ r1.transitions) :=
  ⟨fun _ _ _ hab hbc => Nat.le_trans hbc hab⟩

/-- Modelled from the spec for the refinement comparison in C9: the
wavelength in Angstrom that a setter input denotes — a quantity denotes
its converted value, a bare number denotes itself read in Angstrom. -/
def BoundVal.denotesAA : BoundVal → Rat
  | .qty v u => v * u.factorToAA
  | .bare v => v

/-- A concrete line row used by the witnesses: label 0, Si II 6355. -/
def lineA : LinesRow :=
  { label := 0, info := { atomic_number := 14, ion_number := 1, wavelength := 6355 } }

/-- A concrete line row used by the witnesses: label 1, Ca II 3950. -/
def lineB : LinesRow :=
  { label := 1, info := { atomic_number := 20, ion_number := 1, wavelength := 3950 } }

/-- A small concrete dataset: three interacting packets (wavelengths
5000, 4000 and 5050 Angstrom, hitting two distinct lines) and one
packet with no last-line interaction (NaN frequency). -/
def dW : Dataset :=
  { packets := [(some (cAA / 5000), 0), (some (cAA / 4000), 1),
                (some (cAA / 5050), 0), (none, 0)],
    lines := [lineA, lineB],
    spectrum_wavelength := [1000, 9000] }

/-- The ranked export rows `plot_summary` produces on `dW`. -/
def rowsW : List ExportRow :=
  [{ species := (14, 2), wavelength := 6355, transitions := 2, fraction := 2/3 },
   { species := (20, 2), wavelength := 3950, transitions := 1, fraction := 1/3 }]

/-- The primary export file produced on `dW` over the full range. -/
def mfW : ExportFile := { headerRange := (1000, 9000), rows := rowsW }

/-- The collapsed companion file produced on `dW`. -/
def cfW : CollapsedFile :=
  { headerRange := (1000, 9000),
    rows := [{ species := (14, 2), wavelengths := [6355], transitions := 2,
               fraction := 2/3 },
             { species := (20, 2), wavelengths := [3950], transitions := 1,
               fraction := 1/3 }] }

/-- The full outcome of the exporting `plot_summary` call on `dW` with
`nlines = 1` and bounds 1000..9000. -/
def outW : PlotOut × LIState :=
  ({ nlines := 1, mainFile := some mfW,
     collapsedFileName := some ("out_collapsed.txt".toList),
     collapsedFile := some cfW },
   cachedState dW 1000 9000 [0, 1, 0] [lineA, lineB])

/-- State after a direct `lines_ids_unique` access from a fresh
bound-set state: ids and unique cached, count not. -/
def stIdsUniq (d : Dataset) (a b : Rat) (ids : List Nat) : LIState :=
  { stIds d a b ids with lines_ids_unique_c := some (some (npUnique ids)) }

/-- State after a direct `lines_info_unique` access from a fresh
bound-set state. -/
def stInfoU (d : Dataset) (a b : Rat) (ids : List Nat)
    (tbl : List LinesRow) : LIState :=
  { stIdsUniq d a b ids with lines_info_unique_c := some (some tbl) }

theorem set_both_eq (st : LIState) (v w : BoundVal) :
    setLamMax (setLamMin st v) w =
      boundsSetState (setterCoerce v) (setterCoerce w) := rfl

theorem identify_eq (st : LIState) (v w : BoundVal) :
    identify st v w = boundsSetState (setterCoerce v) (setterCoerce w) := rfl

theorem getLamIn_boundsSet (d : Dataset) (a b : Rat) :
    getLamIn d (boundsSetState a b) = .ok (computeLamIn d, stLamIn d a b) := rfl

theorem getLineMask_boundsSet (d : Dataset) (a b : Rat) :
    getLineMask d (boundsSetState a b) =
      .ok (computeMask d a b, stMask d a b) := rfl

theorem getLinesIds_boundsSet (d : Dataset) (a b : Rat) :
    getLinesIds d (boundsSetState a b) =
      match computeLinesIds d a b with
      | none => .error .indexError
      | some ids => .ok (ids, stIds d a b ids) := rfl

theorem le_foldr_max {x : Nat} {l : List Nat} (h : x ∈ l) :
    x ≤ l.foldr max 0 := by
  induction l with
  | nil => cases h
  | cons a tl ih =>
    rcases List.mem_cons.mp h with h1 | h2
    · subst h1; exact le_max_left _ _
    · exact le_trans (ih h2) (le_max_right _ _)

theorem npUnique_nodup (l : List Nat) : (npUnique l).Nodup :=
  (List.perm_insertionSort _ _).symm.nodup (List.nodup_dedup l)

theorem npUnique_sorted (l : List Nat) : (npUnique l).Sorted (· ≤ ·) :=
  List.sorted_insertionSort _ _

theorem mem_npUnique {x : Nat} {l : List Nat} : x ∈ npUnique l ↔ x ∈ l := by
  unfold npUnique
  rw [(List.perm_insertionSort _ _).mem_iff, List.mem_dedup]

/-- The zero-count-dropped bincount lists, in ascending order of value,
the occurrence count of every distinct value: it is the countwise image
of `np.unique`. -/
theorem posCounts_eq (l : List Nat) :
    posCounts l = (npUnique l).map (fun x => l.count x) := by
  cases l with
  | nil => rfl
  | cons a tl =>
    have hn : ∀ x ∈ a :: tl, x < (a :: tl).foldr max 0 + 1 :=
      fun x hx => Nat.lt_succ_of_le (le_foldr_max hx)
    show ((List.range ((a :: tl).foldr max 0 + 1)).map
        (fun i => (a :: tl).count i)).filter (fun c => decide (0 < c)) = _
    rw [List.filter_map]
    congr 1
    apply List.eq_of_perm_of_sorted ?_ ?_ (npUnique_sorted _)
    · rw [List.perm_ext_iff_of_nodup
        ((List.nodup_range _).filter _) (npUnique_nodup _)]
      intro x
      simp only [List.mem_filter, List.mem_range, mem_npUnique,
        Function.comp_apply, decide_eq_true_eq]
      exact ⟨fun hp => List.count_pos_iff.mp hp.2,
        fun hx => ⟨hn x hx, List.count_pos_iff.mpr hx⟩⟩
    · exact List.Pairwise.sublist (List.filter_sublist _)
        ((List.sorted_le_range _))

/-- Every masked packet is counted once: the counts sum to the length of
the id sequence. -/
theorem posCounts_sum (l : List Nat) : (posCounts l).sum = l.length := by
  rw [posCounts_eq]
  calc ((npUnique l).map fun x => l.count x).sum
      = ((l.dedup).map fun x => l.count x).sum :=
        ((List.perm_insertionSort _ _).map _).sum_eq
    _ = l.length := List.sum_map_count_dedup_eq_length l

theorem ilocIndex_length {lines : List LinesRow} {ids ls : List Nat}
    (h : ilocIndex lines ids = some ls) : ls.length = ids.length := by
  induction ids generalizing ls with
  | nil =>
    simp only [ilocIndex, Option.some.injEq] at h
    subst h; rfl
  | cons i rest ih =>
    unfold ilocIndex at h
    cases hg : lines.get? i with
    | none => rw [hg] at h; cases h
    | some r =>
      rw [hg] at h
      cases hr : ilocIndex lines rest with
      | none => rw [hr] at h; cases h
      | some ls0 =>
        rw [hr] at h
        simp only [Option.map_some', Option.some.injEq] at h
        subst h
        simp [ih hr]

theorem ilocIndex_mem {lines : List LinesRow} {ids ls : List Nat}
    (h : ilocIndex lines ids = some ls) :
    ∀ x ∈ ls, x ∈ lines.map (fun r => r.label) := by
  induction ids generalizing ls with
  | nil =>
    simp only [ilocIndex, Option.some.injEq] at h
    subst h; intro x hx; cases hx
  | cons i rest ih =>
    unfold ilocIndex at h
    cases hg : lines.get? i with
    | none => rw [hg] at h; cases h
    | some r =>
      rw [hg] at h
      cases hr : ilocIndex lines rest with
      | none => rw [hr] at h; cases h
      | some ls0 =>
        rw [hr] at h
        simp only [Option.map_some', Option.some.injEq] at h
        subst h
        intro x hx
        rcases List.mem_cons.mp hx with h1 | h2
        · subst h1
          exact List.mem_map.mpr ⟨r, List.get?_mem hg, rfl⟩
        · exact ih hr x h2

theorem maskedIds_length :
    ∀ (packets : List (Option Rat × Nat)) (mask : List Bool),
      packets.length = mask.length →
      (maskedIds packets mask).length = mask.count true := by
  intro packets
  induction packets with
  | nil =>
    intro mask h
    cases mask with
    | nil => rfl
    | cons b bs => cases h
  | cons p ps ih =>
    intro mask h
    cases mask with
    | nil => cases h
    | cons b bs =>
      have h' : ps.length = bs.length := by simpa using h
      cases b <;> simp [maskedIds, List.count_cons] <;>
        simpa [maskedIds] using ih bs h'

theorem locTable_of_nodup {lines : List LinesRow}
    (hnd : (lines.map (fun r => r.label)).Nodup) :
    ∀ {labels : List Nat},
      (∀ lab ∈ labels, lab ∈ lines.map (fun r => r.label)) →
      ∃ tbl, locTable lines labels = some tbl ∧ tbl.length = labels.length := by
  intro labels
  induction labels with
  | nil => exact fun _ => ⟨[], rfl, rfl⟩
  | cons lab rest ih =>
    intro hmem
    obtain ⟨tbl0, h0, hlen⟩ := ih (fun x hx => hmem x (List.mem_cons_of_mem _ hx))
    have hone : (lines.filter (fun r => r.label == lab)).length = 1 := by
      have hcount : (lines.map (fun r => r.label)).count lab = 1 :=
        List.count_eq_one_of_mem hnd (hmem lab (List.mem_cons_self _ _))
      rw [List.count_eq_countP, List.countP_map,
        List.countP_eq_length_filter] at hcount
      exact hcount
    cases hf : lines.filter (fun r => r.label == lab) with
    | nil => rw [hf] at hone; cases hone
    | cons m ms =>
      rw [hf] at hone
      have hms : ms = [] := by
        simpa using List.length_eq_zero.mp (Nat.succ_injective hone)
      subst hms
      refine ⟨m :: tbl0, ?_, by simp [hlen]⟩
      unfold locTable
      rw [hf, h0]
      rfl

theorem computeLinesIds_length {d : Dataset} {a b : Rat} {ids : List Nat}
    (h : computeLinesIds d a b = some ids) :
    ids.length = (computeMask d a b).count true := by
  unfold computeLinesIds at h
  rw [ilocIndex_length h]
  apply maskedIds_length
  simp [computeMask, computeLamIn]

theorem computeLinesIds_mem {d : Dataset} {a b : Rat} {ids : List Nat}
    (h : computeLinesIds d a b = some ids) :
    ∀ x ∈ ids, x ∈ d.lines.map (fun r => r.label) :=
  ilocIndex_mem h

theorem exceptBind_ok {α β : Type} (a : α) (f : α → Except PyErr β) :
    (Except.ok a >>= f) = f a := rfl

theorem exceptBind_error {α β : Type} (err : PyErr) (f : α → Except PyErr β) :
    ((Except.error err : Except PyErr α) >>= f) = .error err := rfl

theorem getLinesCount_boundsSet (d : Dataset) (a b : Rat) :
    getLinesCount d (boundsSetState a b) =
      match computeLinesIds d a b with
      | none => .error .indexError
      | some ids => .ok (posCounts ids, stCount d a b ids) := by
  have key : getLinesCount d (boundsSetState a b) =
      getLinesIds d (boundsSetState a b) >>= fun p =>
        Except.ok (posCounts p.1,
          { p.2 with lines_count_c := some (some (posCounts p.1)) }) := rfl
  rw [key, getLinesIds_boundsSet]
  cases hids : computeLinesIds d a b with
  | none => rfl
  | some ids => rfl

theorem getLinesIdsUnique_stCount (d : Dataset) (a b : Rat) (ids : List Nat) :
    getLinesIdsUnique d (stCount d a b ids) =
      .ok (npUnique ids, stUnique d a b ids) := rfl

theorem getLinesInfoUnique_stUnique (d : Dataset) (a b : Rat)
    (ids : List Nat) :
    getLinesInfoUnique d (stUnique d a b ids) =
      match locTable d.lines (npUnique ids) with
      | none => .error .keyError
      | some tbl => .ok (tbl, cachedState d a b ids tbl) := rfl

theorem plotSummarySetBounds_eq (d : Dataset) (v? w? : Option BoundVal)
    (st : LIState) :
    plotSummarySetBounds d v? w? st =
      match resolvedBounds d v? w? with
      | none => .error (.valueError "zero-size array reduction")
      | some (a, b) => .ok (boundsSetState a b) := by
  cases v? with
  | none =>
    cases hmin : npMin d.spectrum_wavelength with
    | none =>
      cases w? with
      | none =>
        simp [plotSummarySetBounds, resolvedBounds, resolvedBound, hmin,
          exceptBind_error]
      | some w =>
        simp [plotSummarySetBounds, resolvedBounds, resolvedBound, hmin,
          exceptBind_error]
    | some m =>
      cases w? with
      | none =>
        cases hmax : npMax d.spectrum_wavelength with
        | none =>
          simp [plotSummarySetBounds, resolvedBounds, resolvedBound, hmin,
            hmax, exceptBind_error, exceptBind_ok]
        | some mx =>
          simp [plotSummarySetBounds, resolvedBounds, resolvedBound, hmin,
            hmax, exceptBind_ok, set_both_eq, setterCoerce, BoundVal.toAA,
            BoundVal.asNumber]
      | some w =>
        simp [plotSummarySetBounds, resolvedBounds, resolvedBound, hmin,
          exceptBind_ok, set_both_eq, setterCoerce, BoundVal.toAA,
          BoundVal.asNumber]
  | some v =>
    cases w? with
    | none =>
      cases hmax : npMax d.spectrum_wavelength with
      | none =>
        simp [plotSummarySetBounds, resolvedBounds, resolvedBound, hmax,
          exceptBind_error, exceptBind_ok]
      | some mx =>
        simp [plotSummarySetBounds, resolvedBounds, resolvedBound, hmax,
          exceptBind_ok, set_both_eq, setterCoerce, BoundVal.toAA,
          BoundVal.asNumber]
    | some w =>
      simp [plotSummarySetBounds, resolvedBounds, resolvedBound,
        exceptBind_ok, set_both_eq, setterCoerce, BoundVal.toAA,
        BoundVal.asNumber]

theorem plotSummaryBody_boundsSet (d : Dataset) (nl : Option Nat)
    (n? : Option (List Char)) (a b : Rat) :
    plotSummaryBody d nl n? (boundsSetState a b) = purePlot d nl a b n? := by
  unfold plotSummaryBody purePlot
  rw [getLinesCount_boundsSet]
  cases hids : computeLinesIds d a b with
  | none => rfl
  | some ids =>
    simp only [exceptBind_ok]
    rw [getLinesIdsUnique_stCount]
    simp only [exceptBind_ok]
    rw [getLinesInfoUnique_stUnique]
    cases htbl : locTable d.lines (npUnique ids) with
    | none => rfl
    | some tbl =>
      simp only [exceptBind_ok]
      split <;> split <;> rename_i heq <;> rw [heq] <;> rfl

theorem plotSummaryCompute_eq (d : Dataset) (nl : Option Nat)
    (v? w? : Option BoundVal) (n? : Option (List Char)) (st : LIState) :
    plotSummaryCompute d nl v? w? n? st =
      match resolvedBounds d v? w? with
      | none => .error (.valueError "zero-size array reduction")
      | some (a, b) => purePlot d nl a b n? := by
  have key : plotSummaryCompute d nl v? w? n? st =
      plotSummarySetBounds d v? w? st >>= plotSummaryBody d nl n? := rfl
  rw [key, plotSummarySetBounds_eq]
  cases hres : resolvedBounds d v? w? with
  | none => rfl
  | some ab =>
    obtain ⟨a, b⟩ := ab
    simp only [exceptBind_ok]
    exact plotSummaryBody_boundsSet d nl n? a b

theorem buildRows_length {tbl : List LinesRow} {total : Rat} :
    ∀ {prs : List (Nat × Nat)} {rows : List ExportRow},
      buildRows tbl total prs = .ok rows → rows.length = prs.length := by
  intro prs
  induction prs with
  | nil =>
    intro rows h
    simp only [buildRows, Except.ok.injEq] at h
    subst h; rfl
  | cons p rest ih =>
    intro rows h
    obtain ⟨lab, c⟩ := p
    unfold buildRows at h
    cases hf : tbl.find? (fun r => r.label == lab) with
    | none => rw [hf] at h; cases h
    | some r =>
      rw [hf] at h
      cases hb : buildRows tbl total rest with
      | error e => rw [hb] at h; cases h
      | ok rs =>
        rw [hb] at h
        simp only [Except.map, Except.ok.injEq] at h
        subst h
        simp [ih hb]

theorem argsortAsc_length (counts : List Nat) :
    (argsortAsc counts).length = counts.length := by
  unfold argsortAsc
  rw [(List.perm_insertionSort _ _).length_eq, List.length_range]

theorem posCounts_length (l : List Nat) :
    (posCounts l).length = (npUnique l).length := by
  rw [posCounts_eq]; simp

/-- Inversion of a successful exporting `plot_summary` call: the bounds
resolved, the pipeline succeeded, and the output is the assembled pair
of export files over the ranked rows. -/
theorem plotSummaryCompute_ok_inv {d : Dataset} {nl : Option Nat}
    {v? w? : Option BoundVal} {name : List Char} {st : LIState}
    {out : PlotOut × LIState}
    (h : plotSummaryCompute d nl v? w? (some name) st = .ok out) :
    ∃ a b ids tbl rows,
      resolvedBounds d v? w? = some (a, b) ∧
      computeLinesIds d a b = some ids ∧
      locTable d.lines (npUnique ids) = some tbl ∧
      buildRows tbl ((posCounts ids).sum : Nat)
        ((((argsortAsc (posCounts ids)).reverse).map
            (fun i => (npUnique ids).getD i 0)).zip
          (((argsortAsc (posCounts ids)).reverse).map
            (fun i => (posCounts ids).getD i 0))) = .ok rows ∧
      out = ({ nlines := resolveNlines nl
                 (((argsortAsc (posCounts ids)).reverse).map
                   (fun i => (posCounts ids).getD i 0)).length,
               mainFile := some { headerRange := (a, b), rows := rows },
               collapsedFileName := some (collapsedName name),
               collapsedFile :=
                 some { headerRange := (a, b),
                        rows := sortCollapsedDesc (collapseRows rows) } },
             cachedState d a b ids tbl) := by
  rw [plotSummaryCompute_eq] at h
  split at h
  · cases h
  · rename_i a b heq
    unfold purePlot at h
    split at h
    · cases h
    · rename_i ids hids
      split at h
      · cases h
      · rename_i tbl htbl
        split at h
        · cases h
        · rename_i rows hrows
          exact ⟨a, b, ids, tbl, rows, heq, hids, htbl, hrows,
            (Except.ok.inj h).symm⟩

theorem collapseRows_transitions {rows : List ExportRow} {r : CollapsedRow}
    (hr : r ∈ collapseRows rows) :
    r.transitions =
      ((rows.filter (fun q => q.species == r.species)).map
        (fun q => q.transitions)).sum := by
  unfold collapseRows at hr
  obtain ⟨sp, hsp, rfl⟩ := List.mem_map.mp hr
  rfl

theorem sortCollapsedDesc_perm (rs : List CollapsedRow) :
    List.Perm (sortCollapsedDesc rs) rs :=
  List.perm_insertionSort _ _

theorem sortCollapsedDesc_sorted (rs : List CollapsedRow) :
    (sortCollapsedDesc rs).Sorted
      (fun r1 r2 => r2.transitions ≤ r1.transitions) :=
  List.sorted_insertionSort _ _

theorem collapseRows_species (rows : List ExportRow) :
    (collapseRows rows).map (fun r => r.species) =
      (rows.map (fun r => r.species)).dedup := by
  unfold collapseRows
  rw [List.map_map]
  simp [Function.comp_def]

theorem getLinesIds_boundsSet_fst (d : Dataset) (a b : Rat) :
    (getLinesIds d (boundsSetState a b)).map Prod.fst =
      match computeLinesIds d a b with
      | none => .error .indexError
      | some ids => .ok ids := by
  rw [getLinesIds_boundsSet]
  cases computeLinesIds d a b <;> rfl

theorem getLinesIdsUnique_boundsSet (d : Dataset) (a b : Rat) :
    getLinesIdsUnique d (boundsSetState a b) =
      match computeLinesIds d a b with
      | none => .error .indexError
      | some ids => .ok (npUnique ids, stIdsUniq d a b ids) := by
  have key : getLinesIdsUnique d (boundsSetState a b) =
      getLinesIds d (boundsSetState a b) >>= fun p =>
        Except.ok (npUnique p.1,
          { p.2 with lines_ids_unique_c := some (some (npUnique p.1)) }) := rfl
  rw [key, getLinesIds_boundsSet]
  cases computeLinesIds d a b <;> rfl

theorem getLinesIdsUnique_boundsSet_fst (d : Dataset) (a b : Rat) :
    (getLinesIdsUnique d (boundsSetState a b)).map Prod.fst =
      match computeLinesIds d a b with
      | none => .error .indexError
      | some ids => .ok (npUnique ids) := by
  rw [getLinesIdsUnique_boundsSet]
  cases computeLinesIds d a b <;> rfl

theorem getLinesInfoUnique_boundsSet (d : Dataset) (a b : Rat) :
    getLinesInfoUnique d (boundsSetState a b) =
      match computeLinesIds d a b with
      | none => .error .indexError
      | some ids =>
        match locTable d.lines (npUnique ids) with
        | none => .error .keyError
        | some tbl => .ok (tbl, stInfoU d a b ids tbl) := by
  have key : getLinesInfoUnique d (boundsSetState a b) =
      getLinesIdsUnique d (boundsSetState a b) >>= fun p =>
        (match locTable d.lines p.1 with
         | none => Except.error PyErr.keyError
         | some tbl =>
           Except.ok (tbl,
             { p.2 with lines_info_unique_c := some (some tbl) })) := rfl
  rw [key, getLinesIdsUnique_boundsSet]
  cases computeLinesIds d a b with
  | none => rfl
  | some ids => rfl

theorem getLinesInfoUnique_boundsSet_fst (d : Dataset) (a b : Rat) :
    (getLinesInfoUnique d (boundsSetState a b)).map Prod.fst =
      match computeLinesIds d a b with
      | none => .error .indexError
      | some ids =>
        match locTable d.lines (npUnique ids) with
        | none => .error .keyError
        | some tbl => .ok tbl := by
  rw [getLinesInfoUnique_boundsSet]
  cases computeLinesIds d a b with
  | none => rfl
  | some ids =>
    change Except.map Prod.fst
        (match locTable d.lines (npUnique ids) with
         | none => Except.error PyErr.keyError
         | some tbl => Except.ok (tbl, stInfoU d a b ids tbl)) =
      match locTable d.lines (npUnique ids) with
      | none => Except.error PyErr.keyError
      | some tbl => Except.ok tbl
    cases locTable d.lines (npUnique ids) <;> rfl

theorem getLinesCount_boundsSet_fst (d : Dataset) (a b : Rat) :
    (getLinesCount d (boundsSetState a b)).map Prod.fst =
      match computeLinesIds d a b with
      | none => .error .indexError
      | some ids => .ok (posCounts ids) := by
  rw [getLinesCount_boundsSet]
  cases computeLinesIds d a b <;> rfl

/-- C1: every assignment to `lam_min` or `lam_max` — directly through a
setter or through `identify` — resets the six derived attributes to
`None` before the new bound is stored, and a derived quantity read
after the bound change is recomputed from the newly stored bounds, so
it never reflects values computed under the previous bounds. -/
theorem setters_invalidate_derived_cache (st : LIState) (v w : BoundVal)
    (d : Dataset) :
    derivedInvalidated (setLamMin st v) ∧
    derivedInvalidated (setLamMax st v) ∧
    (setLamMin st v).lam_min_attr = some (some (setterCoerce v)) ∧
    (setLamMax st v).lam_max_attr = some (some (setterCoerce v)) ∧
    identify st v w = boundsSetState (setterCoerce v) (setterCoerce w) ∧
    (getLamIn d (identify st v w)).map Prod.fst = .ok (computeLamIn d) ∧
    (getLineMask d (identify st v w)).map Prod.fst =
      .ok (computeMask d (setterCoerce v) (setterCoerce w)) ∧
    (getLinesIds d (identify st v w)).map Prod.fst =
      (match computeLinesIds d (setterCoerce v) (setterCoerce w) with
       | none => .error .indexError
       | some ids => .ok ids) ∧
    (getLinesIdsUnique d (identify st v w)).map Prod.fst =
      (match computeLinesIds d (setterCoerce v) (setterCoerce w) with
       | none => .error .indexError
       | some ids => .ok (npUnique ids)) ∧
    (getLinesInfoUnique d (identify st v w)).map Prod.fst =
      (match computeLinesIds d (setterCoerce v) (setterCoerce w) with
       | none => .error .indexError
       | some ids =>
         match locTable d.lines (npUnique ids) with
         | none => .error .keyError
         | some tbl => .ok tbl) ∧
    (getLinesCount d (identify st v w)).map Prod.fst =
      (match computeLinesIds d (setterCoerce v) (setterCoerce w) with
       | none => .error .indexError
       | some ids => .ok (posCounts ids)) :=
  ⟨⟨rfl, rfl, rfl, rfl, rfl, rfl⟩, ⟨rfl, rfl, rfl, rfl, rfl, rfl⟩, rfl, rfl,
   identify_eq st v w, rfl, rfl,
   getLinesIds_boundsSet_fst d _ _,
   getLinesIdsUnique_boundsSet_fst d _ _,
   getLinesInfoUnique_boundsSet_fst d _ _,
   getLinesCount_boundsSet_fst d _ _⟩

/-- C2: under bounds `lmin ≤ … ≤ lmax` the mask is true exactly at the
packets whose converted last-interaction wavelength lies inside the
inclusive range, and a packet with an absent (NaN) wavelength is never
included. -/
theorem line_mask_inclusive_range (d : Dataset) (lmin lmax : Rat) (i : Nat) :
    ((computeMask d lmin lmax).getD i false = true ↔
      (∃ v : Rat, (computeLamIn d).getD i none = some v ∧
        lmin ≤ v ∧ v ≤ lmax)) ∧
    ((computeLamIn d).getD i none = none →
      (computeMask d lmin lmax).getD i false = false) := by
  unfold computeMask
  rw [List.getD_eq_getD_get?, List.getD_eq_getD_get?, List.get?_map]
  cases h : (computeLamIn d).get? i with
  | none => simp
  | some o =>
    cases o with
    | none => simp [maskOf]
    | some v => simp [maskOf]

/-- C2 witness at the concrete dataset `dW` and packet 0. -/
theorem line_mask_inclusive_range_witness :
    ((computeMask dW 1000 9000).getD 0 false = true ↔
      (∃ v : Rat, (computeLamIn dW).getD 0 none = some v ∧
        1000 ≤ v ∧ v ≤ 9000)) ∧
    ((computeLamIn dW).getD 0 none = none →
      (computeMask dW 1000 9000).getD 0 false = false) :=
  line_mask_inclusive_range dW 1000 9000 0

/-- C3: the counts sum to the number of masked packets — every masked
packet is attributed to exactly one line. -/
theorem lines_count_sums_to_masked (d : Dataset) (lmin lmax : Rat)
    (ids : List Nat) (h : computeLinesIds d lmin lmax = some ids) :
    (posCounts ids).sum = (computeMask d lmin lmax).count true := by
  rw [posCounts_sum, computeLinesIds_length h]

/-- C3 witness: on `dW` three of the four packets are masked and the
zero-dropped bincount sums to three. -/
theorem lines_count_sums_to_masked_witness :
    computeLinesIds dW 1000 9000 = some [0, 1, 0] ∧
    (posCounts [0, 1, 0]).sum = (computeMask dW 1000 9000).count true :=
  ⟨by norm_num [computeLinesIds, computeMask, computeLamIn, dW, lineA, lineB,
      maskedIds, maskOf, nuToLam, cAA, ilocIndex],
   lines_count_sums_to_masked dW 1000 9000 [0, 1, 0]
     (by norm_num [computeLinesIds, computeMask, computeLamIn, dW, lineA,
       lineB, maskedIds, maskOf, nuToLam, cAA, ilocIndex])⟩

/-- C4: `lines_ids_unique`, `lines_count` and `lines_info_unique` have
the same length, the unique ids are sorted ascending, and the i-th
count is the multiplicity of the i-th unique id in `lines_ids` — the
zero-dropped bincount and `np.unique` agree positionally. -/
theorem lines_unique_count_info_aligned (d : Dataset) (lmin lmax : Rat)
    (ids : List Nat) (h : computeLinesIds d lmin lmax = some ids)
    (hnd : (d.lines.map (fun r => r.label)).Nodup) :
    ∃ tbl, locTable d.lines (npUnique ids) = some tbl ∧
      tbl.length = (npUnique ids).length ∧
      (posCounts ids).length = (npUnique ids).length ∧
      (npUnique ids).Sorted (· ≤ ·) ∧
      ∀ i, i < (npUnique ids).length →
        (posCounts ids).getD i 0 = ids.count ((npUnique ids).getD i 0) := by
  obtain ⟨tbl, htbl, hlen⟩ := locTable_of_nodup hnd
    (fun lab hl => computeLinesIds_mem h lab (mem_npUnique.mp hl))
  refine ⟨tbl, htbl, hlen, posCounts_length ids, npUnique_sorted ids, ?_⟩
  intro i hi
  rw [posCounts_eq, List.getD_eq_getD_get?, List.getD_eq_getD_get?,
    List.get?_map]
  cases hx : (npUnique ids).get? i with
  | none =>
    exact absurd hi (Nat.not_lt.mpr (List.get?_eq_none.mp hx))
  | some x => rfl

/-- C4 witness on `dW`: unique ids `[0, 1]`, counts `[2, 1]`, info rows
`[lineA, lineB]`. -/
theorem lines_unique_count_info_aligned_witness :
    computeLinesIds dW 1000 9000 = some [0, 1, 0] ∧
    (dW.lines.map (fun r => r.label)).Nodup ∧
    ∃ tbl, locTable dW.lines (npUnique [0, 1, 0]) = some tbl ∧
      tbl.length = (npUnique [0, 1, 0]).length ∧
      (posCounts [0, 1, 0]).length = (npUnique [0, 1, 0]).length ∧
      (npUnique [0, 1, 0]).Sorted (· ≤ ·) ∧
      ∀ i, i < (npUnique [0, 1, 0]).length →
        (posCounts [0, 1, 0]).getD i 0 =
          List.count ((npUnique [0, 1, 0]).getD i 0) [0, 1, 0] :=
  ⟨by norm_num [computeLinesIds, computeMask, computeLamIn, dW, lineA, lineB,
      maskedIds, maskOf, nuToLam, cAA, ilocIndex],
   by decide,
   lines_unique_count_info_aligned dW 1000 9000 [0, 1, 0]
     (by norm_num [computeLinesIds, computeMask, computeLamIn, dW, lineA,
       lineB, maskedIds, maskOf, nuToLam, cAA, ilocIndex])
     (by decide)⟩

/-- The concrete exporting `plot_summary` run on `dW` used by the
witnesses: bounds 1000..9000, `nlines = 1`, output file `out.txt`. -/
theorem plotRunW :
    plotSummaryCompute dW (some 1) (some (BoundVal.bare 1000))
      (some (BoundVal.bare 9000)) (some "out.txt".toList) initState =
      .ok outW := by
  rw [plotSummaryCompute_eq]
  have hres : resolvedBounds dW (some (BoundVal.bare 1000))
      (some (BoundVal.bare 9000)) = some (1000, 9000) := rfl
  rw [hres]
  show purePlot dW (some 1) 1000 9000 (some "out.txt".toList) = .ok outW
  have h1 : computeLinesIds dW 1000 9000 = some [0, 1, 0] := by
    norm_num [computeLinesIds, computeMask, computeLamIn, dW, lineA, lineB,
      maskedIds, maskOf, nuToLam, cAA, ilocIndex]
  have h2 : npUnique [0, 1, 0] = [0, 1] := by decide
  have h3 : locTable dW.lines [0, 1] = some [lineA, lineB] := by decide
  have h4 : posCounts [0, 1, 0] = [2, 1] := by decide
  have h5 : argsortAsc [2, 1] = [1, 0] := by decide
  unfold purePlot
  simp only [h1, h2, h3, h4, h5]
  norm_num [buildRows, lineA, lineB, resolveNlines, collapsedName,
    collapseRows, sortCollapsedDesc, List.insertionSort, List.orderedInsert,
    outW, mfW, cfW, rowsW, Except.map, List.dedup_cons_of_not_mem,
    List.dedup_cons_of_mem, List.filter_cons]

/-- C5 (code-bug evidence): reading a bound on a freshly constructed
instance raises AttributeError — the `_lam_min`/`_lam_max` attributes
were never created, because `__init__` does not call `_reset_cache` —
rather than the documented "unset value" ValueError; the ValueError
branch of each getter is unreachable on a fresh instance. -/
theorem fresh_bound_read_raises_attribute_error :
    getLamMin initState = .error (.attributeError "_lam_min") ∧
    getLamMax initState = .error (.attributeError "_lam_max") ∧
    getLamMin initState ≠ .error (.valueError "lam_min not set") ∧
    getLamMax initState ≠ .error (.valueError "lam_max is not set") :=
  ⟨rfl, rfl,
   fun h => PyErr.noConfusion (Except.error.inj h),
   fun h => PyErr.noConfusion (Except.error.inj h)⟩

/-- C6 counterexample: on `dW` with `nlines = 1` the resolved `nlines`
is 1 yet the primary exported file carries 2 data rows — the export is
not restricted to the displayed top-N lines. -/
theorem export_rows_exceed_nlines_counterexample :
    (plotSummaryCompute dW (some 1) (some (BoundVal.bare 1000))
        (some (BoundVal.bare 9000)) (some "out.txt".toList) initState).map
      (fun p => (p.1.nlines, p.1.mainFile.map (fun f => f.rows.length))) =
      .ok (1, some 2) ∧ ¬ (2 = 1) := by
  constructor
  · rw [plotRunW]; rfl
  · decide

/-- C6 amended: the primary exported file contains one data row for
every distinct line in the wavelength range (the full ranking, not only
the displayed top `nlines`), preceded by the single header comment line
stating the resolved wavelength range. -/
theorem export_rows_all_ranked_lines (d : Dataset) (nl : Option Nat)
    (v? w? : Option BoundVal) (name : List Char) (st : LIState)
    (out : PlotOut × LIState)
    (h : plotSummaryCompute d nl v? w? (some name) st = .ok out)
    (mf : ExportFile) (hmf : out.1.mainFile = some mf) :
    ∃ a b ids, resolvedBounds d v? w? = some (a, b) ∧
      computeLinesIds d a b = some ids ∧
      mf.headerRange = (a, b) ∧
      mf.rows.length = (npUnique ids).length := by
  obtain ⟨a, b, ids, tbl, rows, hres, hids, htbl, hrows, hout⟩ :=
    plotSummaryCompute_ok_inv h
  subst hout
  simp only [Option.some.injEq] at hmf
  refine ⟨a, b, ids, hres, hids, ?_, ?_⟩
  · rw [← hmf]
  · rw [← hmf]
    show rows.length = (npUnique ids).length
    rw [buildRows_length hrows, List.length_zip, List.length_map,
      List.length_map, Nat.min_self, List.length_reverse, argsortAsc_length,
      posCounts_length]

/-- C6 amended witness: on `dW` the exported file holds both ranked
lines and its header states the resolved range. -/
theorem export_rows_all_ranked_lines_witness :
    ∃ a b ids,
      resolvedBounds dW (some (BoundVal.bare 1000))
        (some (BoundVal.bare 9000)) = some (a, b) ∧
      computeLinesIds dW a b = some ids ∧
      mfW.headerRange = (a, b) ∧
      mfW.rows.length = (npUnique ids).length :=
  export_rows_all_ranked_lines dW (some 1) (some (BoundVal.bare 1000))
    (some (BoundVal.bare 9000)) "out.txt".toList initState outW plotRunW
    mfW rfl

/-- C7 counterexample: for `out.json` the code inserts `_collapsed`
before the last four characters, yielding `out._collapsedjson` instead
of the spec's `out_collapsed.json`. -/
theorem collapsed_name_counterexample :
    collapsedName "out.json".toList = "out._collapsedjson".toList ∧
    specCollapsedName "out.json".toList = "out_collapsed.json".toList ∧
    collapsedName "out.json".toList ≠ specCollapsedName "out.json".toList :=
  ⟨by decide, by decide, by decide⟩

/-- C7 amended: the companion name is the output name with `_collapsed`
inserted before its last four characters; this coincides with inserting
before the extension exactly when the extension is a dot followed by
three non-dot characters. -/
theorem collapsed_name_inserts_before_last_four (t : List Char)
    (x y z : Char) (hx : x ≠ '.') (hy : y ≠ '.') (hz : z ≠ '.') :
    collapsedName (t ++ ['.', x, y, z]) =
      t ++ "_collapsed".toList ++ ['.', x, y, z] ∧
    collapsedName (t ++ ['.', x, y, z]) =
      specCollapsedName (t ++ ['.', x, y, z]) := by
  have hlen : (t ++ ['.', x, y, z]).length = t.length + 4 := by
    simp
  have hcode : collapsedName (t ++ ['.', x, y, z]) =
      t ++ "_collapsed".toList ++ ['.', x, y, z] := by
    unfold collapsedName
    rw [hlen, Nat.add_sub_cancel, List.take_left, List.drop_left]
  have hext : ((t ++ ['.', x, y, z]).reverse.takeWhile
      (fun ch => decide (ch ≠ '.'))).length = 3 := by
    rw [List.reverse_append]
    simp [List.takeWhile_cons, hx, hy, hz]
  have hspec : specCollapsedName (t ++ ['.', x, y, z]) =
      t ++ "_collapsed".toList ++ ['.', x, y, z] := by
    simp only [specCollapsedName]
    rw [hext, hlen]
    rw [if_neg (by omega : ¬ (3 = t.length + 4))]
    have h1 : t.length + 4 - 3 - 1 = t.length := by omega
    rw [h1, List.take_left, List.drop_left]
  exact ⟨hcode, hcode.trans hspec.symm⟩

/-- C7 amended witness at `out.txt`. -/
theorem collapsed_name_inserts_before_last_four_witness :
    collapsedName ("out".toList ++ ['.', 't', 'x', 't']) =
      "out".toList ++ "_collapsed".toList ++ ['.', 't', 'x', 't'] ∧
    collapsedName ("out".toList ++ ['.', 't', 'x', 't']) =
      specCollapsedName ("out".toList ++ ['.', 't', 'x', 't']) :=
  collapsed_name_inserts_before_last_four "out".toList 't' 'x' 't'
    (by decide) (by decide) (by decide)

/-- C8: in the collapsed companion file, every species row's transition
total is the sum of the transition counts of all rows of that species
in the primary file, and the collapsed rows are sorted by descending
transition total. -/
theorem collapsed_totals_and_descending_order (d : Dataset)
    (nl : Option Nat) (v? w? : Option BoundVal) (name : List Char)
    (st : LIState) (out : PlotOut × LIState)
    (h : plotSummaryCompute d nl v? w? (some name) st = .ok out)
    (mf : ExportFile) (cf : CollapsedFile)
    (hmf : out.1.mainFile = some mf) (hcf : out.1.collapsedFile = some cf) :
    (∀ r ∈ cf.rows,
        r.transitions =
          ((mf.rows.filter (fun q => q.species == r.species)).map
            (fun q => q.transitions)).sum) ∧
    cf.rows.Sorted (fun r1 r2 => r2.transitions ≤ r1.transitions) ∧
    List.Perm (cf.rows.map (fun r => r.species))
      ((mf.rows.map (fun r => r.species)).dedup) := by
  obtain ⟨a, b, ids, tbl, rows, hres, hids, htbl, hrows, hout⟩ :=
    plotSummaryCompute_ok_inv h
  subst hout
  simp only [Option.some.injEq] at hmf hcf
  subst hmf
  subst hcf
  refine ⟨?_, sortCollapsedDesc_sorted _, ?_⟩
  · intro r hr
    exact collapseRows_transitions ((sortCollapsedDesc_perm _).mem_iff.mp hr)
  · exact ((sortCollapsedDesc_perm _).map _).trans
      (collapseRows_species rows ▸ List.Perm.refl _)

/-- C8 witness on the concrete export of `dW`. -/
theorem collapsed_totals_and_descending_order_witness :
    (∀ r ∈ cfW.rows,
        r.transitions =
          ((mfW.rows.filter (fun q => q.species == r.species)).map
            (fun q => q.transitions)).sum) ∧
    cfW.rows.Sorted (fun r1 r2 => r2.transitions ≤ r1.transitions) ∧
    List.Perm (cfW.rows.map (fun r => r.species))
      ((mfW.rows.map (fun r => r.species)).dedup) :=
  collapsed_totals_and_descending_order dW (some 1)
    (some (BoundVal.bare 1000)) (some (BoundVal.bare 9000))
    "out.txt".toList initState outW plotRunW mfW cfW rfl rfl

/-- C9: a bound setter always stores the value as a wavelength in
Angstrom — a dimensioned quantity through conversion, a bare number
through the AttributeError fallback reading it as Angstrom — so two
inputs denoting the same wavelength store the same bound. -/
theorem setter_coerces_to_angstrom (st : LIState) (v w : BoundVal) :
    (setLamMin st v).lam_min_attr = some (some v.denotesAA) ∧
    (setLamMax st v).lam_max_attr = some (some v.denotesAA) ∧
    (v.denotesAA = w.denotesAA →
      (setLamMin st v).lam_min_attr = (setLamMin st w).lam_min_attr ∧
      (setLamMax st v).lam_max_attr = (setLamMax st w).lam_max_attr) := by
  have hco : ∀ u : BoundVal, setterCoerce u = u.denotesAA := fun u => by
    cases u <;> rfl
  refine ⟨?_, ?_, fun he => ⟨?_, ?_⟩⟩
  · show some (some (setterCoerce v)) = some (some v.denotesAA)
    rw [hco]
  · show some (some (setterCoerce v)) = some (some v.denotesAA)
    rw [hco]
  · show some (some (setterCoerce v)) = some (some (setterCoerce w))
    rw [hco, hco, he]
  · show some (some (setterCoerce v)) = some (some (setterCoerce w))
    rw [hco, hco, he]

/-- C9 witness: a 500 nanometre quantity (factor 10 to Angstrom) and
the bare number 5000 store the same bound. -/
theorem setter_coerces_to_angstrom_witness :
    (setLamMin initState (BoundVal.qty 500 ⟨10⟩)).lam_min_attr =
      (setLamMin initState (BoundVal.bare 5000)).lam_min_attr ∧
    (setLamMax initState (BoundVal.qty 500 ⟨10⟩)).lam_max_attr =
      (setLamMax initState (BoundVal.bare 5000)).lam_max_attr :=
  (setter_coerces_to_angstrom initState (BoundVal.qty 500 ⟨10⟩)
    (BoundVal.bare 5000)).2.2 (by norm_num [BoundVal.denotesAA])

/-- C10: `plot_summary` always assigns both bounds through the setters
(defaulting to the spectrum ends when an argument is omitted): its
outcome is independent of whatever bounds and caches a prior
`identify` left on the instance, and right after bound resolution the
bounds hold the resolved values with every derived cache invalidated. -/
theorem plot_summary_overrides_prior_state (d : Dataset) (nl : Option Nat)
    (v? w? : Option BoundVal) (n? : Option (List Char)) (st st' : LIState) :
    plotSummaryCompute d nl v? w? n? st =
      plotSummaryCompute d nl v? w? n? st' ∧
    plotSummarySetBounds d v? w? st = plotSummarySetBounds d v? w? st' ∧
    (∀ st2, plotSummarySetBounds d v? w? st = .ok st2 →
      ∃ a b, resolvedBounds d v? w? = some (a, b) ∧
        st2 = boundsSetState a b ∧ derivedInvalidated st2 ∧
        st2.lam_min_attr = some (some a) ∧
        st2.lam_max_attr = some (some b)) := by
  refine ⟨by rw [plotSummaryCompute_eq, plotSummaryCompute_eq],
          by rw [plotSummarySetBounds_eq, plotSummarySetBounds_eq], ?_⟩
  intro st2 h
  rw [plotSummarySetBounds_eq] at h
  split at h
  · cases h
  · rename_i a b heq
    have h2 := Except.ok.inj h
    subst h2
    exact ⟨a, b, heq, rfl, ⟨rfl, rfl, rfl, rfl, rfl, rfl⟩, rfl, rfl⟩

/-- C10 witness: on `dW` with both arguments omitted the bounds become
the spectrum ends 1000 and 9000 and all caches are cleared. -/
theorem plot_summary_overrides_prior_state_witness :
    ∃ a b, resolvedBounds dW none none = some (a, b) ∧
      boundsSetState 1000 9000 = boundsSetState a b ∧
      derivedInvalidated (boundsSetState 1000 9000) ∧
      (boundsSetState 1000 9000).lam_min_attr = some (some a) ∧
      (boundsSetState 1000 9000).lam_max_attr = some (some b) :=
  (plot_summary_overrides_prior_state dW none none none none initState
      (boundsSetState 1000 9000)).2.2 (boundsSetState 1000 9000)
    (by rw [plotSummarySetBounds_eq]
        norm_num [resolvedBounds, resolvedBound, npMin, npMax, dW])

end LineID
